import Mathlib

/-!
# awless: entity catalog and sample definition table

A shallow embedding of

* `template/internal/ast/entities.go`: the `entities` map and `IsInvalidEntity`;
* `template/data_test.go`: the `DefsExample` map literal.

A Go `map[K]V` literal is embedded as the list of its `key: value` entries, and the
built-in index expression `v, ok := m[k]` as `mapIndex m k : Option V`
(`some v` when `ok` is true, `none` when it is false).
-/

/-- A Go map value, given by the entries of its literal. -/
abbrev GoMap (κ ν : Type) := List (κ × ν)

/-- The keys of a Go map, in the order the literal writes them. -/
def GoMap.keys {κ ν : Type} (m : GoMap κ ν) : List κ :=
  m.map Prod.fst

/-- Go's index expression with the comma-ok form, `v, ok := m[k]`:
`some v` stands for `(v, true)` and `none` for `(zero value, false)`. -/
def mapIndex {κ ν : Type} [DecidableEq κ] : GoMap κ ν → κ → Option ν
  | [], _ => none
  | (k, v) :: rest, key => if key = k then some v else mapIndex rest key

namespace ast

/-- Go: `type Entity string`. -/
abbrev Entity := String

/-- Go: `var entities = map[Entity]struct{}{ ... }`; `struct{}` is `Unit`. -/
def entities : GoMap Entity Unit :=
  [ ("none", ()),
    ("accesskey", ()),
    ("alarm", ()),
    ("scalinggroup", ()),
    ("bucket", ()),
    ("database", ()),
    ("dbsubnetgroup", ()),
    ("elasticip", ()),
    ("function", ()),
    ("group", ()),
    ("instance", ()),
    ("image", ()),
    ("internetgateway", ()),
    ("keypair", ()),
    ("launchconfiguration", ()),
    ("listener", ()),
    ("loadbalancer", ()),
    ("policy", ()),
    ("queue", ()),
    ("record", ()),
    ("role", ()),
    ("route", ()),
    ("routetable", ()),
    ("s3object", ()),
    ("scalingpolicy", ()),
    ("securitygroup", ()),
    ("snapshot", ()),
    ("subnet", ()),
    ("subscription", ()),
    ("tag", ()),
    ("targetgroup", ()),
    ("topic", ()),
    ("user", ()),
    ("volume", ()),
    ("vpc", ()),
    ("zone", ()) ]

/-- Go:
```go
func IsInvalidEntity(s string) bool {
	_, ok := entities[Entity(s)]
	return !ok
}
```
-/
def IsInvalidEntity (s : String) : Bool :=
  match mapIndex entities s with
  | some _ => false
  | none => true

end ast

namespace template

/-- Modelled from the spec: the declaration of the struct type `Definition` is not among
the source files. The fields are the five the `DefsExample` literal sets, typed as the
literal uses them (three `string`s and two `[]string`s), in the order the spec lists them. -/
structure Definition where
  Action : String
  Entity : String
  Api : String
  RequiredParams : List String
  ExtraParams : List String
deriving DecidableEq, Repr

/-- Go: `var DefsExample = map[string]Definition{ ... }`. -/
def DefsExample : GoMap String Definition :=
  [ ("createinstance",
      { Action := "create",
        Entity := "instance",
        Api := "ec2",
        RequiredParams := ["image", "count", "count", "type", "subnet"],
        ExtraParams := ["keypair", "ip", "userdata", "securitygroup", "lock"] }),
    ("createkeypair",
      { Action := "create",
        Entity := "keypair",
        Api := "ec2",
        RequiredParams := ["name"],
        ExtraParams := [] }),
    ("createtag",
      { Action := "create",
        Entity := "tag",
        Api := "ec2",
        RequiredParams := ["resource", "key", "value"],
        ExtraParams := [] }) ]

/-- Modelled from the spec: the result type of `Definition.Validate`, which is not among
the source files. It carries the three outcomes the spec says are reported together. -/
structure ValidationResult where
  Missing : List String
  Unknown : List String
  Success : Bool
deriving DecidableEq, Repr

/-- Modelled from the spec: `Definition.Validate(suppliedParams)` is not among the source
files. Following section 4.2, it determines which `RequiredParams` are missing from the
supplied names, which supplied names are in neither `RequiredParams` nor `ExtraParams`,
and success when every required parameter is present and every supplied parameter is
recognized. The supplied set is given by a list of its elements. -/
def Definition.Validate (d : Definition) (suppliedParams : List String) : ValidationResult :=
  { Missing := d.RequiredParams.filter (fun p => !suppliedParams.contains p),
    Unknown := suppliedParams.filter
      (fun p => !d.RequiredParams.contains p && !d.ExtraParams.contains p),
    Success := d.RequiredParams.all (fun p => suppliedParams.contains p) &&
      suppliedParams.all (fun p => d.RequiredParams.contains p || d.ExtraParams.contains p) }

end template

/-! ## The index expression -/

theorem mapIndex_eq_none_iff {κ ν : Type} [DecidableEq κ] (m : GoMap κ ν) (key : κ) :
    mapIndex m key = none ↔ key ∉ m.keys := by
  induction m with
  | nil => simp [mapIndex, GoMap.keys]
  | cons e rest ih =>
    obtain ⟨k, v⟩ := e
    by_cases hk : key = k
    · simp [mapIndex, GoMap.keys, hk]
    · simpa [mapIndex, GoMap.keys, hk] using ih

theorem mapIndex_isSome_iff {κ ν : Type} [DecidableEq κ] (m : GoMap κ ν) (key : κ) :
    (mapIndex m key).isSome = true ↔ key ∈ m.keys := by
  rw [← not_iff_not, ← mapIndex_eq_none_iff]
  cases mapIndex m key <;> simp

theorem mem_of_mapIndex_eq_some {κ ν : Type} [DecidableEq κ] (m : GoMap κ ν) (key : κ) (v : ν)
    (h : mapIndex m key = some v) : (key, v) ∈ m := by
  induction m with
  | nil => simp [mapIndex] at h
  | cons e rest ih =>
    obtain ⟨k, w⟩ := e
    by_cases hk : key = k
    · subst hk
      simp [mapIndex] at h
      simp [h]
    · simp only [mapIndex, hk, if_false] at h
      exact List.mem_cons_of_mem _ (ih h)

theorem mapIndex_eq_some_of_mem {κ ν : Type} [DecidableEq κ] (m : GoMap κ ν) (key : κ) (v : ν)
    (hnodup : m.keys.Nodup) (h : (key, v) ∈ m) : mapIndex m key = some v := by
  induction m with
  | nil => simp at h
  | cons e rest ih =>
    obtain ⟨k, w⟩ := e
    simp only [GoMap.keys, List.map_cons, List.nodup_cons] at hnodup
    rcases List.mem_cons.1 h with heq | hmem
    · cases heq
      simp [mapIndex]
    · have hne : key ≠ k := by
        rintro rfl
        exact hnodup.1 (List.mem_map.2 ⟨(key, v), hmem, rfl⟩)
      simp only [mapIndex, hne, if_false]
      exact ih hnodup.2 hmem

/-! ## The entity catalog -/

namespace ast

theorem entities_keys_nodup : entities.keys.Nodup := by
  decide

theorem IsInvalidEntity_eq_true_iff (s : String) :
    IsInvalidEntity s = true ↔ s ∉ entities.keys := by
  rw [← mapIndex_eq_none_iff]
  unfold IsInvalidEntity
  cases mapIndex entities s <;> simp

theorem IsInvalidEntity_eq_false_iff (s : String) :
    IsInvalidEntity s = false ↔ s ∈ entities.keys := by
  rw [← not_iff_not, ← IsInvalidEntity_eq_true_iff]
  simp

theorem entities_keys_wellFormed :
    ∀ s ∈ entities.keys, s ≠ "" ∧ s.toList.all
      (fun c => (c.isLower || c.isDigit) && !c.isUpper && !c.isWhitespace && c.isAlphanum) = true := by
  decide

/-- C1: for every string `s`, `IsInvalidEntity s` is true if and only if `s` is not one of
the 36 names declared in the `entities` table (the sentinel "none" and the 35 resource
names from "accesskey" to "zone"); the table declares exactly these 36 distinct names;
`IsInvalidEntity "wormhole"` is true, `IsInvalidEntity "instance"` and
`IsInvalidEntity "none"` are false. -/
theorem IsInvalidEntity_iff_not_declared (s : String) :
    (IsInvalidEntity s = true ↔
      s ∉ ["none", "accesskey", "alarm", "scalinggroup", "bucket", "database",
        "dbsubnetgroup", "elasticip", "function", "group", "instance", "image",
        "internetgateway", "keypair", "launchconfiguration", "listener", "loadbalancer",
        "policy", "queue", "record", "role", "route", "routetable", "s3object",
        "scalingpolicy", "securitygroup", "snapshot", "subnet", "subscription", "tag",
        "targetgroup", "topic", "user", "volume", "vpc", "zone"]) ∧
    entities.keys.length = 36 ∧ entities.keys.Nodup ∧
    IsInvalidEntity "wormhole" = true ∧
    IsInvalidEntity "instance" = false ∧
    IsInvalidEntity "none" = false := by
  refine ⟨?_, rfl, entities_keys_nodup, by decide, by decide, by decide⟩
  rw [IsInvalidEntity_eq_true_iff]
  rfl

/-- C9: entity validation is case-sensitive and rejects malformed tokens. Every string
for which `IsInvalidEntity` returns false is non-empty and consists only of lowercase
ASCII letters and decimal digits; hence `IsInvalidEntity` returns true for the empty
string and for every string containing an uppercase letter, a whitespace character or any
other non-alphanumeric character (punctuation included), for example "Instance" and
" instance". -/
theorem IsInvalidEntity_rejects_malformed (s : String) :
    (IsInvalidEntity s = false →
      s ≠ "" ∧ ∀ c ∈ s.toList, c.isLower = true ∨ c.isDigit = true) ∧
    IsInvalidEntity "" = true ∧
    ((∃ c ∈ s.toList, c.isUpper = true ∨ c.isWhitespace = true ∨ c.isAlphanum = false) →
      IsInvalidEntity s = true) ∧
    ((∃ c ∈ s.toList, c.isLower = false ∧ c.isDigit = false) → IsInvalidEntity s = true) ∧
    IsInvalidEntity "Instance" = true ∧
    IsInvalidEntity " instance" = true := by
  have key : IsInvalidEntity s = false → s ≠ "" ∧ ∀ c ∈ s.toList,
      ((c.isLower || c.isDigit) && !c.isUpper && !c.isWhitespace && c.isAlphanum) = true := by
    intro h
    have hw := entities_keys_wellFormed s ((IsInvalidEntity_eq_false_iff s).1 h)
    exact ⟨hw.1, List.all_eq_true.1 hw.2⟩
  refine ⟨?_, by decide, ?_, ?_, by decide, by decide⟩
  · intro h
    refine ⟨(key h).1, fun c hc => ?_⟩
    have := (key h).2 c hc
    simp only [Bool.and_eq_true, Bool.or_eq_true] at this
    exact this.1.1.1
  · rintro ⟨c, hc, hbad⟩
    by_contra hne
    have := (key (by simpa using hne)).2 c hc
    simp only [Bool.and_eq_true, Bool.or_eq_true, Bool.not_eq_true'] at this
    rcases hbad with hu | hs | ha
    · rw [this.1.1.2] at hu
      exact Bool.false_ne_true hu
    · rw [this.1.2] at hs
      exact Bool.false_ne_true hs
    · rw [this.2] at ha
      exact Bool.false_ne_true ha.symm
  · rintro ⟨c, hc, hl, hd⟩
    by_contra hne
    have := (key (by simpa using hne)).2 c hc
    simp only [Bool.and_eq_true, Bool.or_eq_true] at this
    rcases this.1.1.1 with h | h
    · rw [hl] at h
      exact Bool.false_ne_true h
    · rw [hd] at h
      exact Bool.false_ne_true h

/-- Witness for C9 at the valid name "s3object": it is accepted, hence non-empty and made
of lowercase ASCII letters and decimal digits only. -/
theorem IsInvalidEntity_rejects_malformed_witness :
    IsInvalidEntity "s3object" = false ∧
    ("s3object" ≠ "" ∧ ∀ c ∈ "s3object".toList, c.isLower = true ∨ c.isDigit = true) :=
  ⟨by decide, (IsInvalidEntity_rejects_malformed "s3object").1 (by decide)⟩

end ast

/-! ## The sample definition table -/

namespace template

theorem DefsExample_keys_nodup : DefsExample.keys.Nodup := by
  decide

theorem DefsExample_stored_iff (key : String) (d : Definition) :
    mapIndex DefsExample key = some d ↔ (key, d) ∈ DefsExample :=
  ⟨mem_of_mapIndex_eq_some _ _ _, mapIndex_eq_some_of_mem _ _ _ DefsExample_keys_nodup⟩

theorem DefsExample_forall_stored (P : String → Definition → Prop)
    (h : ∀ e ∈ DefsExample, P e.1 e.2) (key : String) (d : Definition)
    (hd : mapIndex DefsExample key = some d) : P key d :=
  h (key, d) (mem_of_mapIndex_eq_some _ _ _ hd)

/-- C2: for every Definition `d` stored in the `DefsExample` table, `d.Entity` is a valid
entity: `IsInvalidEntity d.Entity` returns false. -/
theorem DefsExample_entity_valid (key : String) (d : Definition)
    (hd : mapIndex DefsExample key = some d) : ast.IsInvalidEntity d.Entity = false :=
  DefsExample_forall_stored (fun _ d => ast.IsInvalidEntity d.Entity = false) (by decide)
    key d hd

/-- Witness for C2 at the key "createtag", whose Definition has the entity "tag". -/
theorem DefsExample_entity_valid_witness :
    mapIndex DefsExample "createtag" =
      some ⟨"create", "tag", "ec2", ["resource", "key", "value"], []⟩ ∧
    ast.IsInvalidEntity "tag" = false :=
  ⟨by decide, DefsExample_entity_valid "createtag"
    ⟨"create", "tag", "ec2", ["resource", "key", "value"], []⟩ (by decide)⟩

/-- C3: for every Definition `d` stored in the `DefsExample` table, no parameter name
occurs in both `d.RequiredParams` and `d.ExtraParams`. -/
theorem DefsExample_params_disjoint (key : String) (d : Definition)
    (hd : mapIndex DefsExample key = some d) (p : String) :
    ¬ (p ∈ d.RequiredParams ∧ p ∈ d.ExtraParams) := by
  have h : ∀ q ∈ d.RequiredParams, q ∉ d.ExtraParams :=
    DefsExample_forall_stored (fun _ d => ∀ q ∈ d.RequiredParams, q ∉ d.ExtraParams)
      (by decide) key d hd
  exact fun hp => h p hp.1 hp.2

/-- Witness for C3 at the key "createinstance" and the parameter name "count". -/
theorem DefsExample_params_disjoint_witness :
    mapIndex DefsExample "createinstance" =
      some ⟨"create", "instance", "ec2", ["image", "count", "count", "type", "subnet"],
        ["keypair", "ip", "userdata", "securitygroup", "lock"]⟩ ∧
    ¬ ("count" ∈ ["image", "count", "count", "type", "subnet"] ∧
      "count" ∈ ["keypair", "ip", "userdata", "securitygroup", "lock"]) :=
  ⟨by decide, DefsExample_params_disjoint "createinstance"
    ⟨"create", "instance", "ec2", ["image", "count", "count", "type", "subnet"],
      ["keypair", "ip", "userdata", "securitygroup", "lock"]⟩ (by decide) "count"⟩

/-- C4: indexing `DefsExample` with the key "createkeypair" succeeds and yields exactly
the Definition with Action "create", Entity "keypair", Api "ec2", RequiredParams equal to
the one-element list ["name"] and ExtraParams equal to the empty list. -/
theorem DefsExample_createkeypair :
    mapIndex DefsExample "createkeypair" =
      some { Action := "create", Entity := "keypair", Api := "ec2",
             RequiredParams := ["name"], ExtraParams := [] } := by
  decide

/-- C5: indexing `DefsExample` is exact-match: for every string `key` the index reports
found if and only if `key` is exactly one of "createinstance", "createkeypair",
"createtag"; indexing with "deletewormhole" reports not found. -/
theorem DefsExample_found_iff (key : String) :
    ((mapIndex DefsExample key).isSome = true ↔
      key = "createinstance" ∨ key = "createkeypair" ∨ key = "createtag") ∧
    (mapIndex DefsExample "deletewormhole").isSome = false := by
  refine ⟨?_, by decide⟩
  rw [mapIndex_isSome_iff]
  simp [DefsExample, GoMap.keys]

/-- C6: for every entry `(key, d)` of the `DefsExample` table, `key` is the concatenation
of `d.Action` followed by `d.Entity` with no separator, and `key` contains no uppercase
letter. -/
theorem DefsExample_key_convention (key : String) (d : Definition)
    (h : (key, d) ∈ DefsExample) :
    key = d.Action ++ d.Entity ∧ ∀ c ∈ key.toList, c.isUpper = false := by
  have hall : ∀ e ∈ DefsExample,
      e.1 = e.2.Action ++ e.2.Entity ∧ ∀ c ∈ e.1.toList, c.isUpper = false := by
    decide
  exact hall (key, d) h

/-- Witness for C6 at the entry stored under "createkeypair". -/
theorem DefsExample_key_convention_witness :
    (("createkeypair", ⟨"create", "keypair", "ec2", ["name"], []⟩) :
        String × Definition) ∈ DefsExample ∧
    ("createkeypair" = "create" ++ "keypair" ∧
      ∀ c ∈ "createkeypair".toList, c.isUpper = false) :=
  ⟨by decide, DefsExample_key_convention "createkeypair"
    ⟨"create", "keypair", "ec2", ["name"], []⟩ (by decide)⟩

/-- C7: the Definition stored under the key "createinstance" in `DefsExample` lists the
name "count" twice in its RequiredParams: RequiredParams is the five-element list
["image", "count", "count", "type", "subnet"], in which "count" occurs exactly two
times. -/
theorem DefsExample_createinstance_count_twice :
    (mapIndex DefsExample "createinstance").map Definition.RequiredParams =
      some ["image", "count", "count", "type", "subnet"] ∧
    ["image", "count", "count", "type", "subnet"].length = 5 ∧
    (mapIndex DefsExample "createinstance").map (fun d => d.RequiredParams.count "count") =
      some 2 := by
  decide

/-- C8: `Definition.Validate` reports every problem in one pass: for every Definition `d`
and every supplied set of parameter names, the result lists all names of
`d.RequiredParams` absent from the supplied set and all supplied names that are in neither
`d.RequiredParams` nor `d.ExtraParams`, and it succeeds exactly when both lists are empty;
validating the "createtag" Definition against the supplied set {"resource"} reports the
missing params ["key", "value"]. -/
theorem Validate_collects_all (d : Definition) (suppliedParams : List String) :
    (∀ p, p ∈ (d.Validate suppliedParams).Missing ↔
      p ∈ d.RequiredParams ∧ p ∉ suppliedParams) ∧
    (∀ p, p ∈ (d.Validate suppliedParams).Unknown ↔
      p ∈ suppliedParams ∧ p ∉ d.RequiredParams ∧ p ∉ d.ExtraParams) ∧
    ((d.Validate suppliedParams).Success = true ↔
      (d.Validate suppliedParams).Missing = [] ∧ (d.Validate suppliedParams).Unknown = []) ∧
    (mapIndex DefsExample "createtag").map (fun t => (t.Validate ["resource"]).Missing) =
      some ["key", "value"] := by
  refine ⟨?_, ?_, ?_, by decide⟩
  · intro p
    simp [Definition.Validate, List.mem_filter]
  · intro p
    simp [Definition.Validate, List.mem_filter]
  · simp only [Definition.Validate, Bool.and_eq_true, List.all_eq_true, List.filter_eq_nil_iff]
    simp only [Bool.or_eq_true, Bool.and_eq_true, Bool.not_eq_true', not_and,
      Bool.not_eq_false]
    refine and_congr Iff.rfl (forall₂_congr fun a _ => ?_)
    cases d.RequiredParams.contains a <;> simp

end template
